import Mathlib

/-!
Shallow embedding of the `hats` repository (an HTTP ↔ NATS JetStream bridge).

The embedding covers, faithfully to the Go source:

* `pub.go` — the `Message` model, `getNatsHeader` (ingress header filtering),
  the `Publisher.Publish` HTTP handler, and the `bearerAuth` middleware;
* `sub.go` — webhook resolution in `NewSubscriber`, the egress
  `Consumer.send` callback, and the provisioning helpers
  `getOrCreateStream` / `getOrCreateConsumer`.

Modelling conventions:

* Go `map[string][]string` (`url.Values`, `http.Header`, `nats.Header`) is
  modelled as an association list `Multimap` with the map's unique-key
  discipline; Go's unspecified map iteration order is abstracted by the
  list order.  `Set`, `Add`, `Get` mirror the Go methods.  MIME-key
  canonicalisation performed by `http.Header` is the identity on every key
  this repository uses ("Content-Type", "Authorization", "Nats-…") and is
  not modelled.
* A URL's `RawQuery` is modelled as its list of `&`-separated segments
  (`URLParts.querySegments`), which is a faithful bijection with the raw
  string since segments never contain `&`.  `url.Values.Encode`
  percent-escaping is modelled as the identity, and its key sort is an
  insertion sort (only the resulting permutation matters to any property
  proved here).
* Results of external effects — `url.Parse`, `http.Client.Do`,
  `io.ReadAll`, JetStream lookups and creations, `js.PublishMsg` — are
  inputs to the embedded functions (the environment); the embedded code is
  everything the repository itself does with those results.
* Byte slices are lists of naturals; errors carried by the environment are
  `Except` values.
* `http.NewRequestWithContext` cannot fail in `Consumer.send` (the method
  is the literal "POST" and the URL string is the serialisation of an
  already-parsed URL), so its error branch is not modelled.
-/

namespace Hats

/-- Byte strings (Go `[]byte`) are modelled as lists of naturals. -/
abbrev Bytes := List Nat

/-- Go `map[string][]string` as an association list. -/
abbrev Multimap := List (String × List String)

/-- The map read `m[k]`: the values of the first entry with key `k`
(entries are unique-keyed under the map discipline), empty when absent. -/
def multiGetAll : Multimap → String → List String
  | [], _ => []
  | kv :: rest, k => if kv.1 = k then kv.2 else multiGetAll rest k

/-- Go `Header.Add` / appending to a map entry:
`m[k] = append(m[k], v)` — appends `v` to the values of `k`,
creating the entry if absent. -/
def multiAdd : Multimap → String → String → Multimap
  | [], k, v => [(k, [v])]
  | kv :: rest, k, v =>
    if kv.1 = k then (kv.1, kv.2 ++ [v]) :: rest else kv :: multiAdd rest k v

/-- Go `Values.Set` / `Header.Set`: the key now maps to exactly `[v]`.
(The entry's position in the list differs from Go's in-place map update,
which is unobservable: maps are unordered.) -/
def multiSet (h : Multimap) (k v : String) : Multimap :=
  h.filter (fun kv => kv.1 ≠ k) ++ [(k, [v])]

/-- Go `Values.Get`: the first value stored under the key, `""` when absent. -/
def multiGet (h : Multimap) (k : String) : String :=
  match h.find? (fun kv => kv.1 = k) with
  | some kv => kv.2.headD ""
  | none => ""

/-- pub.go `Message`: subject, payload, header set. -/
structure Message where
  subject : String
  data : Bytes
  header : Multimap
  deriving DecidableEq

/-- pub.go `getNatsHeader`: keep exactly the request headers whose key
starts (case-sensitively) with `"Nats-"`. -/
def getNatsHeader (h : Multimap) : Multimap :=
  h.filter (fun kv => "Nats-".isPrefixOf kv.1)

/-- The parts of an incoming HTTP request that `Publisher.Publish` reads:
the parsed query of the request URL, the outcome of `io.ReadAll(r.Body)`
(the error carries `err.Error()`), and the request headers. -/
structure IngressRequest where
  query : Multimap
  body : Except String Bytes
  header : Multimap

/-- An HTTP response as written by the handler: status code and body text
(the trailing newline appended by `http.Error` is elided). -/
structure IngressResponse where
  status : Nat
  body : String
  deriving DecidableEq

/-- Observable outcome of one `Publisher.Publish` call: the response and
the list of messages passed to `js.PublishMsg` (one entry per call). -/
structure PublishOutcome where
  response : IngressResponse
  published : List Message

/-- pub.go `Publisher.Publish`.  `publishResult` is the environment's
outcome of `js.PublishMsg` (its error carries `err.Error()`).  A handler
that writes nothing responds 200 with an empty body. -/
def Publish (r : IngressRequest) (publishResult : Except String Unit) : PublishOutcome :=
  let subject := multiGet r.query "subject"
  if subject = "" then
    ⟨⟨400, "missing query parameter \"subject\""⟩, []⟩
  else
    match r.body with
    | Except.error e => ⟨⟨400, "failed to read body: " ++ e⟩, []⟩
    | Except.ok data =>
      let m : Message := ⟨subject, data, getNatsHeader r.header⟩
      match publishResult with
      | Except.error e => ⟨⟨500, e⟩, [m]⟩
      | Except.ok _ => ⟨⟨200, ""⟩, [m]⟩

/-- Outcome of the `bearerAuth` middleware for one request: either the
protected handler runs on the unchanged request, or the middleware
responds itself and the handler is never invoked. -/
inductive GateOutcome
  | proceed
  | reject (status : Nat) (wwwAuthenticate : String) (body : Bytes)
  deriving DecidableEq

/-- pub.go `bearerAuth`.  `authorization` is the value of
`r.Header.Get("Authorization")` (`""` when the header is absent). -/
def bearerAuth (realm token authorization : String) : GateOutcome :=
  if token = "" then GateOutcome.proceed
  else if authorization ≠ "Bearer " ++ token then
    GateOutcome.reject 401 ("Bearer realm=\"" ++ realm ++ "\"") []
  else GateOutcome.proceed

/-- sub.go `WebhookConfig`. -/
structure WebhookConfig where
  url : String
  key : String
  deriving DecidableEq

/-- A parsed URL as `Consumer.send` uses it: everything before the query,
plus the raw query as its list of `&`-separated segments. -/
structure URLParts where
  base : String
  querySegments : List String
  deriving DecidableEq

/-- `strings.Cut(seg, "=")` as used by query parsing: the key is the part
of the segment before the first `=`, the value the part after it
(`""` when there is no `=`). -/
def splitParam (seg : String) : String × String :=
  ⟨String.mk (seg.toList.takeWhile (fun c => c != '=')),
   String.mk ((seg.toList.dropWhile (fun c => c != '=')).drop 1)⟩

/-- Go `url.ParseQuery` (as invoked by `URL.Query()`, which discards the
error): empty segments and segments containing `;` are skipped, every
other segment is cut at its first `=` and appended to the map.
Percent-decoding is modelled as the identity. -/
def parseQuerySegments (segs : List String) : Multimap :=
  (segs.filter (fun s => s ≠ "" ∧ s.toList.contains ';' = false)).foldl
    (fun vs seg => multiAdd vs (splitParam seg).1 (splitParam seg).2) []

/-- Byte-lexicographic order on strings (Go `sort.Strings` on map keys). -/
def charListLe : List Char → List Char → Bool
  | [], _ => true
  | _ :: _, [] => false
  | a :: as, b :: bs =>
    if a.val < b.val then true
    else if b.val < a.val then false
    else charListLe as bs

/-- Key order used by `url.Values.Encode`. -/
def byKeyLe (a b : String × List String) : Bool :=
  charListLe a.1.toList b.1.toList

/-- Insertion into a sorted list (helper for the key sort of `Encode`). -/
def insSorted (x : String × List String) :
    List (String × List String) → List (String × List String)
  | [] => [x]
  | y :: ys => if byKeyLe x y then x :: y :: ys else y :: insSorted x ys

/-- Sort of the map entries by key (insertion sort; only the resulting
permutation is relevant to any property proved below). -/
def sortByKey : List (String × List String) → List (String × List String)
  | [] => []
  | x :: xs => insSorted x (sortByKey xs)

/-- Go `url.Values.Encode`: keys sorted, one `k=v` segment per stored
value (percent-escaping modelled as the identity). -/
def encodeSegments (vs : Multimap) : List String :=
  (sortByKey vs).flatMap (fun kv => kv.2.map (fun v => kv.1 ++ "=" ++ v))

/-- The query segments of the URL `Consumer.send` posts to: the parsed
query of the configured webhook URL with `subject` set to the message's
subject, re-encoded. -/
def outgoingSegments (u : URLParts) (subject : String) : List String :=
  encodeSegments (multiSet (parseQuerySegments u.querySegments) "subject" subject)

/-- The outbound HTTP request built by `Consumer.send`. -/
structure HttpRequest where
  method : String
  url : String
  body : Bytes
  header : Multimap
  deriving DecidableEq

/-- The webhook's HTTP response as `Consumer.send` observes it: the status
code and the outcome of `io.ReadAll(resp.Body)`. -/
structure HttpResponse where
  statusCode : Nat
  bodyRead : Except Unit Bytes

/-- Observable outcome of one `Consumer.send` call: the request handed to
`httpClient.Do` (none when `send` returned before issuing it) and the
number of `msg.Ack()` calls. -/
structure SendResult where
  request : Option HttpRequest
  acks : Nat

/-- The loop `for key, values := range m.Header: for _, v := range values:
req.Header.Add(key, v)` — every entry's values appended onto `base`. -/
def addAll (base entries : Multimap) : Multimap :=
  entries.foldl (fun h kv => kv.2.foldl (fun h v => multiAdd h kv.1 v) h) base

/-- The request headers `Consumer.send` sets before copying the message
headers: `Content-Type: application/json`, and `Authorization: Bearer
<key>` exactly when the webhook key is non-empty (both via `Header.Set`
on the fresh request's empty header map). -/
def requestBaseHeader (w : WebhookConfig) : Multimap :=
  if w.key ≠ "" then
    multiSet (multiSet [] "Content-Type" "application/json")
      "Authorization" ("Bearer " ++ w.key)
  else multiSet [] "Content-Type" "application/json"

/-- sub.go `Consumer.send`, request-building phase (everything between the
successful `url.Parse` and the `httpClient.Do` call). -/
def buildRequest (w : WebhookConfig) (m : Message) (u : URLParts) : HttpRequest :=
  ⟨"POST",
   u.base ++ "?" ++ "&".intercalate (outgoingSegments u m.subject),
   m.data,
   addAll (requestBaseHeader w) m.header⟩

/-- sub.go `Consumer.send`.  `parsed` is the outcome of
`url.Parse(c.webhook.URL)` and `doResult` the outcome of
`c.httpClient.Do(req)`; both are environment inputs.  The message is
acknowledged exactly on the path where the transport call succeeded, the
response body was fully read, and the status code is 200. -/
def send (w : WebhookConfig) (m : Message) (parsed : Option URLParts)
    (doResult : Except Unit HttpResponse) : SendResult :=
  match parsed with
  | none => ⟨none, 0⟩
  | some u =>
    let req := buildRequest w m u
    match doResult with
    | Except.error _ => ⟨some req, 0⟩
    | Except.ok resp =>
      match resp.bodyRead with
      | Except.error _ => ⟨some req, 0⟩
      | Except.ok _ =>
        if resp.statusCode ≠ 200 then ⟨some req, 0⟩ else ⟨some req, 1⟩

/-- JetStream acknowledgment policies (jetstream.AckPolicy). -/
inductive AckPolicy
  | ackExplicit
  | ackNone
  | ackAll
  deriving DecidableEq

/-- JetStream delivery policies (jetstream.DeliverPolicy). -/
inductive DeliverPolicy
  | deliverAll
  | deliverLast
  | deliverNew
  | deliverByStartSequence
  | deliverByStartTime
  | deliverLastPerSubject
  deriving DecidableEq

/-- The fields of `jetstream.ConsumerConfig` that
`getOrCreateConsumer` sets when creating a consumer. -/
structure JetStreamConsumerConfig where
  durable : String
  ackPolicy : AckPolicy
  deliverPolicy : DeliverPolicy
  maxDeliver : Int
  deriving DecidableEq

/-- Outcome of `getOrCreateStream`: the returned handle or error, and how
many times `js.CreateStream` was invoked. -/
structure StreamProvision where
  result : Except Unit Nat
  createCalls : Nat

/-- sub.go `getOrCreateStream`.  `lookup` is the outcome of
`js.Stream(ctx, name)` and `create` the outcome of `js.CreateStream`;
stream handles are abstracted as naturals.  Any lookup error (not only
not-found) falls through to the creation attempt. -/
def getOrCreateStream (lookup create : Except Unit Nat) : StreamProvision :=
  match lookup with
  | Except.ok s => ⟨Except.ok s, 0⟩
  | Except.error _ => ⟨create, 1⟩

/-- Outcome of `getOrCreateConsumer`: the returned handle or error, and
the configuration passed to `stream.CreateConsumer` (none when no
creation happened). -/
structure ConsumerProvision where
  result : Except Unit Nat
  created : Option JetStreamConsumerConfig

/-- sub.go `getOrCreateConsumer`.  `lookup` is the outcome of
`stream.Consumer(ctx, name)` and `create` maps a consumer configuration
to the outcome of `stream.CreateConsumer` with it.  Any lookup error
falls through to one creation attempt with explicit-ack, deliver-all and
`MaxDeliver: -1` (unlimited redelivery). -/
def getOrCreateConsumer (name : String) (lookup : Except Unit Nat)
    (create : JetStreamConsumerConfig → Except Unit Nat) : ConsumerProvision :=
  match lookup with
  | Except.ok c => ⟨Except.ok c, none⟩
  | Except.error _ =>
    let cfg : JetStreamConsumerConfig :=
      ⟨name, AckPolicy.ackExplicit, DeliverPolicy.deliverAll, -1⟩
    ⟨create cfg, some cfg⟩

/-- sub.go `NewSubscriber`, webhook fallback: use the consumer's own
webhook, replaced by the process-wide default exactly when the consumer's
URL is empty and the default's URL is non-empty. -/
def resolveWebhook (consumerWebhook defaultWebhook : WebhookConfig) : WebhookConfig :=
  if consumerWebhook.url = "" ∧ defaultWebhook.url ≠ "" then defaultWebhook
  else consumerWebhook

/-- sub.go `ConsumerConfig`: durable name plus optional webhook override. -/
structure ConsumerConfig where
  durableName : String
  webhook : WebhookConfig
  deriving DecidableEq

/-- sub.go `StreamConfig`: stream name plus its consumers. -/
structure StreamConfig where
  name : String
  consumers : List ConsumerConfig
  deriving DecidableEq

/-- A runtime `Consumer` as built by `NewSubscriber`: the provisioned
stream/consumer identity and the resolved webhook target. -/
structure BuiltConsumer where
  streamName : String
  durableName : String
  webhook : WebhookConfig
  deriving DecidableEq

/-- Environment for `NewSubscriber`: the outcomes of the JetStream
lookup/create calls, per stream name and per (stream handle, durable
name). -/
structure ProvisionEnv where
  streamLookup : String → Except Unit Nat
  streamCreate : String → Except Unit Nat
  consumerLookup : Nat → String → Except Unit Nat
  consumerCreate : Nat → JetStreamConsumerConfig → Except Unit Nat

/-- Inner loop of `NewSubscriber` over one stream's consumers: provision
each durable consumer, resolve its webhook, and collect the runtime
consumers; the first provisioning error aborts the whole build. -/
def buildStreamConsumers (env : ProvisionEnv) (defaultWebhook : WebhookConfig)
    (h : Nat) (sname : String) :
    List ConsumerConfig → Except Unit (List BuiltConsumer)
  | [] => Except.ok []
  | c :: rest =>
    match (getOrCreateConsumer c.durableName (env.consumerLookup h c.durableName)
            (env.consumerCreate h)).result with
    | Except.error e => Except.error e
    | Except.ok _ =>
      match buildStreamConsumers env defaultWebhook h sname rest with
      | Except.error e => Except.error e
      | Except.ok more =>
        Except.ok (⟨sname, c.durableName, resolveWebhook c.webhook defaultWebhook⟩ :: more)

/-- sub.go `NewSubscriber`, consumer-building loop: provision every
stream, then every consumer within it; the first error aborts and is
returned to the caller. -/
def buildConsumers (env : ProvisionEnv) (defaultWebhook : WebhookConfig) :
    List StreamConfig → Except Unit (List BuiltConsumer)
  | [] => Except.ok []
  | s :: rest =>
    match (getOrCreateStream (env.streamLookup s.name) (env.streamCreate s.name)).result with
    | Except.error e => Except.error e
    | Except.ok h =>
      match buildStreamConsumers env defaultWebhook h s.name s.consumers with
      | Except.error e => Except.error e
      | Except.ok cs =>
        match buildConsumers env defaultWebhook rest with
        | Except.error e => Except.error e
        | Except.ok more => Except.ok (cs ++ more)

/-- Flatten a multimap back into ordered (key, value) pairs. -/
def flatPairs (vs : Multimap) : List (String × String) :=
  vs.flatMap (fun kv => kv.2.map (fun v => (kv.1, v)))

theorem multiGetAll_nil_of_keys_ne (h : Multimap) (k : String)
    (hk : ∀ kv ∈ h, kv.1 ≠ k) : multiGetAll h k = [] := by
  induction h with
  | nil => rfl
  | cons kv rest ih =>
    rw [multiGetAll, if_neg (hk kv (List.mem_cons_self kv rest))]
    exact ih fun kv' h' => hk kv' (List.mem_cons_of_mem kv h')

theorem multiGetAll_append_of_keys_ne (a b : Multimap) (k : String)
    (ha : ∀ kv ∈ a, kv.1 ≠ k) : multiGetAll (a ++ b) k = multiGetAll b k := by
  induction a with
  | nil => rfl
  | cons kv rest ih =>
    rw [List.cons_append]
    simp only [multiGetAll]
    rw [if_neg (ha kv (List.mem_cons_self kv rest))]
    exact ih fun kv' h' => ha kv' (List.mem_cons_of_mem kv h')

theorem multiGetAll_multiSet_self (h : Multimap) (k v : String) :
    multiGetAll (multiSet h k v) k = [v] := by
  unfold multiSet
  have hkeys : ∀ kv ∈ h.filter (fun kv => kv.1 ≠ k), kv.1 ≠ k := by
    intro kv hkv
    simpa using (List.mem_filter.mp hkv).2
  rw [multiGetAll_append_of_keys_ne _ _ _ hkeys]
  simp [multiGetAll]

theorem multiGetAll_multiSet_ne (h : Multimap) (k v k' : String) (hne : k' ≠ k) :
    multiGetAll (multiSet h k v) k' = multiGetAll h k' := by
  unfold multiSet
  induction h with
  | nil =>
    simp only [List.filter_nil, List.nil_append, multiGetAll]
    exact if_neg fun hh => hne hh.symm
  | cons kv rest ih =>
    by_cases hk : kv.1 = k
    · have hkv : ¬kv.1 = k' := hk ▸ fun hh => hne hh.symm
      rw [List.filter_cons, if_neg (by simp [hk])]
      simp only [multiGetAll]
      rw [if_neg hkv]
      exact ih
    · rw [List.filter_cons, if_pos (by simp [hk]), List.cons_append]
      simp only [multiGetAll]
      by_cases hk' : kv.1 = k'
      · rw [if_pos hk', if_pos hk']
      · rw [if_neg hk', if_neg hk']
        exact ih

theorem multiGetAll_multiAdd_self (h : Multimap) (k v : String) :
    multiGetAll (multiAdd h k v) k = multiGetAll h k ++ [v] := by
  induction h with
  | nil => simp [multiAdd, multiGetAll]
  | cons kv rest ih =>
    by_cases hk : kv.1 = k
    · simp only [multiAdd, if_pos hk, multiGetAll]
    · simp only [multiAdd, if_neg hk, multiGetAll]
      exact ih

theorem multiGetAll_multiAdd_ne (h : Multimap) (k v k' : String) (hne : k' ≠ k) :
    multiGetAll (multiAdd h k v) k' = multiGetAll h k' := by
  induction h with
  | nil =>
    simp only [multiAdd, multiGetAll]
    exact if_neg fun hh => hne hh.symm
  | cons kv rest ih =>
    by_cases hk : kv.1 = k
    · have hkv : ¬kv.1 = k' := hk ▸ fun hh => hne hh.symm
      simp only [multiAdd, if_pos hk, multiGetAll]
      rw [if_neg hkv, if_neg hkv]
    · simp only [multiAdd, if_neg hk, multiGetAll]
      by_cases hk' : kv.1 = k'
      · rw [if_pos hk', if_pos hk']
      · rw [if_neg hk', if_neg hk', ih]

theorem multiGetAll_foldl_values (k0 : String) (vs : List String) (h : Multimap) (k : String) :
    multiGetAll (vs.foldl (fun h v => multiAdd h k0 v) h) k
      = multiGetAll h k ++ (if k0 = k then vs else []) := by
  induction vs generalizing h with
  | nil => simp
  | cons v rest ih =>
    rw [List.foldl_cons, ih]
    by_cases hk : k0 = k
    · subst hk; rw [multiGetAll_multiAdd_self]; simp
    · rw [multiGetAll_multiAdd_ne _ _ _ _ (fun h => hk h.symm)]; simp [hk]

theorem multiGetAll_addAll (entries : Multimap) (k : String) :
    ∀ base : Multimap, List.Pairwise (fun a b => a.1 ≠ b.1) entries →
      multiGetAll (addAll base entries) k = multiGetAll base k ++ multiGetAll entries k := by
  induction entries with
  | nil => intro base _; simp [addAll, multiGetAll]
  | cons kv rest ih =>
    intro base hnd
    rcases List.pairwise_cons.mp hnd with ⟨hhead, hrest⟩
    simp only [addAll, List.foldl_cons] at ih ⊢
    rw [ih _ hrest, multiGetAll_foldl_values]
    by_cases hk : kv.1 = k
    · have hrestnil : multiGetAll rest k = [] :=
        multiGetAll_nil_of_keys_ne rest k fun kv' h' => by
          rw [← hk]; exact fun hh => hhead kv' h' hh.symm
      simp only [multiGetAll]
      rw [if_pos hk, if_pos hk, hrestnil]
      simp
    · simp only [multiGetAll]
      rw [if_neg hk, if_neg hk]
      simp

theorem insSorted_perm (x : String × List String) (l : List (String × List String)) :
    List.Perm (insSorted x l) (x :: l) := by
  induction l with
  | nil => exact List.Perm.refl _
  | cons y ys ih =>
    simp only [insSorted]
    split
    · exact List.Perm.refl _
    · exact (List.Perm.cons y ih).trans (List.Perm.swap x y ys)

theorem sortByKey_perm (l : List (String × List String)) :
    List.Perm (sortByKey l) l := by
  induction l with
  | nil => exact List.Perm.refl _
  | cons x xs ih => exact (insSorted_perm x (sortByKey xs)).trans (List.Perm.cons x ih)

theorem takeWhile_eqFree (r : List Char) :
    ∀ l : List Char, (∀ c ∈ l, (c != '=') = true) →
      (l ++ '=' :: r).takeWhile (fun c => c != '=') = l ∧
        (l ++ '=' :: r).dropWhile (fun c => c != '=') = '=' :: r := by
  intro l
  induction l with
  | nil =>
    intro _
    constructor <;> simp [List.takeWhile_cons, List.dropWhile_cons]
  | cons c cs ih =>
    intro hl
    have hc := hl c (List.mem_cons_self c cs)
    have ihh := ih fun c' h' => hl c' (List.mem_cons_of_mem c h')
    constructor
    · simp only [List.cons_append, List.takeWhile_cons, hc, if_true]
      rw [ihh.1]
    · simp only [List.cons_append, List.dropWhile_cons, hc, if_true]
      exact ihh.2

theorem splitParam_concat (k v : String) (hk : ∀ c ∈ k.toList, (c != '=') = true) :
    splitParam (k ++ "=" ++ v) = (k, v) := by
  have hmid : ("=" : String).data = ['='] := rfl
  have hdata : (k ++ "=" ++ v).toList = k.toList ++ '=' :: v.toList := by
    show (k ++ "=" ++ v).data = k.data ++ '=' :: v.data
    rw [String.data_append, String.data_append, hmid]
    simp
  rcases takeWhile_eqFree v.toList k.toList hk with ⟨ht, hd⟩
  unfold splitParam
  rw [hdata, ht, hd]
  rfl

theorem splitParam_key_eqFree (seg : String) :
    ∀ c ∈ (splitParam seg).1.toList, (c != '=') = true := by
  intro c hc
  have hmem : c ∈ seg.toList.takeWhile (fun c => c != '=') := hc
  have h2 := List.mem_takeWhile_imp hmem
  simpa using h2

theorem multiAdd_keys (P : String → Prop) (k v : String) :
    ∀ vs : Multimap, (∀ kv ∈ vs, P kv.1) → P k → ∀ kv ∈ multiAdd vs k v, P kv.1 := by
  intro vs
  induction vs with
  | nil =>
    intro _ hk kv hkv
    have : kv = (k, [v]) := by simpa [multiAdd] using hkv
    rw [this]
    exact hk
  | cons kv0 rest ih =>
    intro hvs hk kv hkv
    simp only [multiAdd] at hkv
    by_cases h0 : kv0.1 = k
    · rw [if_pos h0] at hkv
      rcases List.mem_cons.mp hkv with h | h
      · rw [h]
        exact hvs kv0 (List.mem_cons_self _ _)
      · exact hvs kv (List.mem_cons_of_mem _ h)
    · rw [if_neg h0] at hkv
      rcases List.mem_cons.mp hkv with h | h
      · rw [h]
        exact hvs kv0 (List.mem_cons_self _ _)
      · exact ih (fun kv' h' => hvs kv' (List.mem_cons_of_mem _ h')) hk kv h

theorem parse_fold_keys (P : String → Prop)
    (hP : ∀ seg : String, P (splitParam seg).1) :
    ∀ (segs : List String) (init : Multimap), (∀ kv ∈ init, P kv.1) →
      ∀ kv ∈ segs.foldl
        (fun vs seg => multiAdd vs (splitParam seg).1 (splitParam seg).2) init,
        P kv.1 := by
  intro segs
  induction segs with
  | nil => intro init hinit kv hkv; exact hinit kv hkv
  | cons seg rest ih =>
    intro init hinit kv hkv
    rw [List.foldl_cons] at hkv
    exact ih _ (multiAdd_keys P _ _ _ hinit (hP seg)) kv hkv

theorem parseQuery_keys_eqFree (segs : List String) :
    ∀ kv ∈ parseQuerySegments segs, ∀ c ∈ kv.1.toList, (c != '=') = true := by
  intro kv hkv
  exact parse_fold_keys (fun k => ∀ c ∈ k.toList, (c != '=') = true)
    (fun seg => splitParam_key_eqFree seg) _ [] (by simp) kv hkv

theorem flatMap_congr_mem {α β : Type} (l : List α) (f g : α → List β)
    (h : ∀ a ∈ l, f a = g a) : l.flatMap f = l.flatMap g := by
  induction l with
  | nil => rfl
  | cons a as ih =>
    rw [List.flatMap_cons, List.flatMap_cons, h a (List.mem_cons_self a as),
      ih fun a' h' => h a' (List.mem_cons_of_mem a h')]

theorem map_splitParam_encode (vs : Multimap)
    (hvs : ∀ kv ∈ vs, ∀ c ∈ kv.1.toList, (c != '=') = true) :
    (encodeSegments vs).map splitParam = flatPairs (sortByKey vs) := by
  unfold encodeSegments flatPairs
  rw [List.map_flatMap]
  refine flatMap_congr_mem _ _ _ fun kv hkv => ?_
  rw [List.map_map]
  refine List.map_congr_left fun v hv => ?_
  exact splitParam_concat kv.1 v (hvs kv ((sortByKey_perm vs).mem_iff.mp hkv))

theorem subject_pairs (q : Multimap) (s : String)
    (hq : ∀ kv ∈ q, ∀ c ∈ kv.1.toList, (c != '=') = true) :
    ((encodeSegments (multiSet q "subject" s)).map splitParam).filter
      (fun p => p.1 = "subject") = [("subject", s)] := by
  have hkeys : ∀ kv ∈ multiSet q "subject" s, ∀ c ∈ kv.1.toList, (c != '=') = true := by
    intro kv hkv
    unfold multiSet at hkv
    rcases List.mem_append.mp hkv with h | h
    · exact hq kv (List.mem_filter.mp h).1
    · have hkvs : kv = ("subject", [s]) := by simpa using h
      rw [hkvs]
      show ∀ c ∈ ("subject" : String).toList, (c != '=') = true
      decide
  rw [map_splitParam_encode _ hkeys]
  have hperm : List.Perm (flatPairs (sortByKey (multiSet q "subject" s)))
      (flatPairs (multiSet q "subject" s)) :=
    (sortByKey_perm _).flatMap_right _
  have hfil := hperm.filter (fun p => p.1 = "subject")
  have hval : (flatPairs (multiSet q "subject" s)).filter (fun p => p.1 = "subject")
      = [("subject", s)] := by
    unfold multiSet flatPairs
    rw [List.flatMap_append _ _ _, List.filter_append]
    have h1 : ((q.filter (fun kv => kv.1 ≠ "subject")).flatMap
        (fun kv => kv.2.map (fun v => (kv.1, v)))).filter
          (fun p => p.1 = "subject") = [] := by
      rw [List.filter_eq_nil_iff]
      intro p hp
      rcases List.mem_flatMap.mp hp with ⟨kv, hkv, hpm⟩
      rcases List.mem_map.mp hpm with ⟨v, hv, hpv⟩
      have hne : kv.1 ≠ "subject" := by simpa using (List.mem_filter.mp hkv).2
      rw [← hpv]
      simpa using hne
    rw [h1]
    simp
  rw [hval] at hfil
  exact List.perm_singleton.mp hfil

theorem send_request (w : WebhookConfig) (m : Message) (u : URLParts)
    (doRes : Except Unit HttpResponse) :
    (send w m (some u) doRes).request = some (buildRequest w m u) := by
  cases doRes with
  | error e => rfl
  | ok r =>
    obtain ⟨sc, br⟩ := r
    cases br with
    | error e => rfl
    | ok b =>
      simp only [send]
      split <;> rfl

theorem requestBaseHeader_CT (w : WebhookConfig) :
    multiGetAll (requestBaseHeader w) "Content-Type" = ["application/json"] := by
  unfold requestBaseHeader
  by_cases hk : w.key = ""
  · rw [if_neg fun hh => hh hk]
    exact multiGetAll_multiSet_self [] _ _
  · rw [if_pos hk, multiGetAll_multiSet_ne _ _ _ _ (by decide)]
    exact multiGetAll_multiSet_self [] _ _

theorem requestBaseHeader_Auth_pos (w : WebhookConfig) (hk : w.key ≠ "") :
    multiGetAll (requestBaseHeader w) "Authorization" = ["Bearer " ++ w.key] := by
  unfold requestBaseHeader
  rw [if_pos hk]
  exact multiGetAll_multiSet_self _ _ _

theorem requestBaseHeader_Auth_neg (w : WebhookConfig) (hk : w.key = "") :
    multiGetAll (requestBaseHeader w) "Authorization" = [] := by
  unfold requestBaseHeader
  rw [if_neg fun hh => hh hk, multiGetAll_multiSet_ne _ _ _ _ (by decide)]
  rfl

theorem requestBaseHeader_other (w : WebhookConfig) (k : String)
    (h1 : k ≠ "Content-Type") (h2 : k ≠ "Authorization") :
    multiGetAll (requestBaseHeader w) k = [] := by
  unfold requestBaseHeader
  by_cases hk : w.key = ""
  · rw [if_neg fun hh => hh hk, multiGetAll_multiSet_ne _ _ _ _ h1]
    rfl
  · rw [if_pos hk, multiGetAll_multiSet_ne _ _ _ _ h2,
      multiGetAll_multiSet_ne _ _ _ _ h1]
    rfl

theorem resolveWebhook_eq (cw d : WebhookConfig) :
    resolveWebhook cw d =
      if cw.url = "" then (if d.url = "" then cw else d) else cw := by
  unfold resolveWebhook
  by_cases h1 : cw.url = ""
  · by_cases h2 : d.url = ""
    · rw [if_pos h1, if_pos h2, if_neg fun hh => hh.2 h2]
    · rw [if_pos h1, if_neg h2, if_pos ⟨h1, h2⟩]
  · rw [if_neg h1, if_neg fun hh => h1 hh.1]

theorem buildStreamConsumers_ok (env : ProvisionEnv) (d : WebhookConfig)
    (h : Nat) (sname : String) :
    ∀ (cs : List ConsumerConfig) (res : List BuiltConsumer),
      buildStreamConsumers env d h sname cs = Except.ok res →
      res = cs.map (fun c => ⟨sname, c.durableName, resolveWebhook c.webhook d⟩) := by
  intro cs
  induction cs with
  | nil =>
    intro res hok
    cases hok
    rfl
  | cons c rest ih =>
    intro res hok
    simp only [buildStreamConsumers] at hok
    split at hok
    · exact Except.noConfusion hok
    · split at hok
      · exact Except.noConfusion hok
      · rename_i more hmore
        injection hok with hh
        subst hh
        rw [List.map_cons, ih more hmore]

theorem buildConsumers_ok (env : ProvisionEnv) (d : WebhookConfig) :
    ∀ (ss : List StreamConfig) (res : List BuiltConsumer),
      buildConsumers env d ss = Except.ok res →
      res = ss.flatMap (fun s => s.consumers.map
        (fun c => ⟨s.name, c.durableName, resolveWebhook c.webhook d⟩)) := by
  intro ss
  induction ss with
  | nil =>
    intro res hok
    cases hok
    rfl
  | cons s rest ih =>
    intro res hok
    simp only [buildConsumers] at hok
    cases hs : (getOrCreateStream (env.streamLookup s.name) (env.streamCreate s.name)).result with
    | error e =>
      simp only [hs] at hok
      exact Except.noConfusion hok
    | ok h0 =>
      simp only [hs] at hok
      cases hcs : buildStreamConsumers env d h0 s.name s.consumers with
      | error e =>
        simp only [hcs] at hok
        exact Except.noConfusion hok
      | ok cs =>
        simp only [hcs] at hok
        cases hmore : buildConsumers env d rest with
        | error e =>
          simp only [hmore] at hok
          exact Except.noConfusion hok
        | ok more =>
          simp only [hmore, Except.ok.injEq] at hok
          subst hok
          rw [List.flatMap_cons, ih more hmore,
            buildStreamConsumers_ok env d h0 s.name s.consumers cs hcs]

/-- C1 (amended): in `Consumer.send`, the delivered message is acknowledged,
and then exactly once, iff the URL parse succeeded, the transport call
succeeded, the response body was fully read, and the response status is
exactly 200; a URL-parse failure, a transport failure, a body-read failure
or a non-200 status each leave the message unacknowledged.  (The claim as
stated — acknowledgment iff the status is exactly 200 — fails when a 200
response's body read fails; see the counterexample.) -/
theorem C1_amended_ack_iff_200_and_body_read (w : WebhookConfig) (m : Message)
    (parsed : Option URLParts) (doRes : Except Unit HttpResponse) :
    (send w m parsed doRes).acks ≤ 1 ∧
      ((send w m parsed doRes).acks = 1 ↔
        ∃ u r b, parsed = some u ∧ doRes = Except.ok r ∧
          r.bodyRead = Except.ok b ∧ r.statusCode = 200) := by
  cases parsed with
  | none => simp [send]
  | some u =>
    cases doRes with
    | error e => simp [send]
    | ok r =>
      obtain ⟨sc, br⟩ := r
      cases br with
      | error e => simp [send]
      | ok b =>
        by_cases hsc : sc = 200
        · subst hsc
          simp [send]
        · simp [send, hsc]

/-- C1 counterexample: a webhook call whose response has status exactly 200
but whose body read fails is not acknowledged, refuting "a 200 response
triggers exactly one acknowledgment". -/
theorem C1_counterexample :
    (HttpResponse.statusCode ⟨200, Except.error ()⟩) = 200 ∧
    (send ⟨"http://h/x", ""⟩ ⟨"S", [], []⟩ (some ⟨"http://h/x", []⟩)
      (Except.ok ⟨200, Except.error ()⟩)).acks = 0 :=
  ⟨rfl, rfl⟩

/-- C9: a delivered message whose webhook call returns HTTP 200 but whose
response body cannot be fully read is not acknowledged: acknowledgment
additionally requires a successful read of the whole response body. -/
theorem C9_no_ack_on_body_read_failure (w : WebhookConfig) (m : Message)
    (u : URLParts) (r : HttpResponse) (h200 : r.statusCode = 200)
    (hbody : r.bodyRead = Except.error ()) :
    (send w m (some u) (Except.ok r)).acks = 0 := by
  obtain ⟨sc, br⟩ := r
  cases br with
  | error e => simp [send]
  | ok b => exact absurd hbody (by simp)

theorem C9_witness :
    (send ⟨"http://w", "k"⟩ ⟨"T", [1], []⟩ (some ⟨"http://w", []⟩)
      (Except.ok ⟨200, Except.error ()⟩)).acks = 0 :=
  C9_no_ack_on_body_read_failure _ _ _ _ rfl rfl

/-- C2 (amended): for every configuration successfully built by
`NewSubscriber`, each consumer's effective webhook target is its own
target when its URL is non-empty; when its URL is empty it is the
process-wide default (URL and key) if the default's URL is non-empty, and
otherwise stays the consumer's own empty-URL target with the consumer's
own key.  (The claim as stated — the default is used whenever the
consumer's URL is empty — fails when the default's URL is also empty; see
the counterexample.) -/
theorem C2_amended_webhook_resolution (env : ProvisionEnv) (d : WebhookConfig)
    (ss : List StreamConfig) (res : List BuiltConsumer)
    (hok : buildConsumers env d ss = Except.ok res) :
    res = ss.flatMap (fun s => s.consumers.map (fun c =>
      ⟨s.name, c.durableName,
        if c.webhook.url = "" then (if d.url = "" then c.webhook else d)
        else c.webhook⟩)) := by
  rw [buildConsumers_ok env d ss res hok]
  refine flatMap_congr_mem _ _ _ fun s hs => ?_
  refine List.map_congr_left fun c hc => ?_
  rw [resolveWebhook_eq]

theorem C2_witness :
    ([⟨"s", "c1", ⟨"http://d/y", "dk"⟩⟩, ⟨"s", "c2", ⟨"http://h/x", "k"⟩⟩]
        : List BuiltConsumer) =
      ([⟨"s", [⟨"c1", ⟨"", ""⟩⟩, ⟨"c2", ⟨"http://h/x", "k"⟩⟩]⟩]
          : List StreamConfig).flatMap (fun s => s.consumers.map (fun c =>
        ⟨s.name, c.durableName,
          if c.webhook.url = "" then
            (if (⟨"http://d/y", "dk"⟩ : WebhookConfig).url = "" then c.webhook
             else ⟨"http://d/y", "dk"⟩)
          else c.webhook⟩)) :=
  C2_amended_webhook_resolution
    ⟨fun _ => Except.ok 0, fun _ => Except.ok 0,
     fun _ _ => Except.ok 0, fun _ _ => Except.ok 0⟩
    ⟨"http://d/y", "dk"⟩ _ _ rfl

/-- C2 counterexample: with consumer webhook ⟨"", "a"⟩ and process-wide
default ⟨"", "b"⟩ (both URLs empty, different keys), the built consumer
keeps its own target ⟨"", "a"⟩ rather than the default ⟨"", "b"⟩, refuting
"the effective target is the process-wide default (both URL and key)
whenever the consumer's URL is empty". -/
theorem C2_counterexample :
    buildConsumers
        ⟨fun _ => Except.ok 0, fun _ => Except.ok 0,
         fun _ _ => Except.ok 0, fun _ _ => Except.ok 0⟩
        ⟨"", "b"⟩ [⟨"s", [⟨"c", ⟨"", "a"⟩⟩]⟩]
      = Except.ok [⟨"s", "c", ⟨"", "a"⟩⟩] ∧
    (⟨"", "a"⟩ : WebhookConfig) ≠ ⟨"", "b"⟩ :=
  ⟨rfl, by decide⟩

/-- C3: an ingress request with a non-empty subject query parameter and a
readable body causes exactly one publish whose payload is the request body
and whose header set is exactly the subset of request headers whose key
starts (case-sensitively) with the reserved prefix "Nats-"; all other
header keys are absent. -/
theorem C3_publish_payload_and_headers (r : IngressRequest)
    (pres : Except String Unit) (data : Bytes)
    (hsub : multiGet r.query "subject" ≠ "") (hbody : r.body = Except.ok data) :
    (Publish r pres).published =
      [⟨multiGet r.query "subject", data, getNatsHeader r.header⟩] ∧
    ∀ k vs, ((k, vs) ∈ getNatsHeader r.header ↔
      ((k, vs) ∈ r.header ∧ "Nats-".isPrefixOf k = true)) := by
  constructor
  · simp only [Publish]
    rw [if_neg hsub, hbody]
    cases pres <;> rfl
  · intro k vs
    unfold getNatsHeader
    rw [List.mem_filter]

theorem C3_witness :
    (Publish ⟨[("subject", ["X"])], Except.ok [49],
        [("Nats-Id", ["1"]), ("Other", ["2"])]⟩ (Except.ok ())).published =
      [⟨multiGet [("subject", ["X"])] "subject", [49],
        getNatsHeader [("Nats-Id", ["1"]), ("Other", ["2"])]⟩] ∧
    ∀ k vs, ((k, vs) ∈ getNatsHeader [("Nats-Id", ["1"]), ("Other", ["2"])] ↔
      ((k, vs) ∈ ([("Nats-Id", ["1"]), ("Other", ["2"])] : Multimap) ∧
        "Nats-".isPrefixOf k = true)) :=
  C3_publish_payload_and_headers _ _ [49] (by decide) rfl

/-- C4: a publish-route request whose subject query parameter is missing
or empty is answered with status 400 and the fixed error message, and no
publish occurs. -/
theorem C4_missing_subject_400 (r : IngressRequest) (pres : Except String Unit)
    (hsub : multiGet r.query "subject" = "") :
    (Publish r pres).response.status = 400 ∧
    (Publish r pres).response.body = "missing query parameter \"subject\"" ∧
    (Publish r pres).published = [] := by
  simp [Publish, hsub]

theorem C4_witness :
    (Publish ⟨[], Except.ok [], []⟩ (Except.ok ())).response.status = 400 ∧
    (Publish ⟨[], Except.ok [], []⟩ (Except.ok ())).response.body =
      "missing query parameter \"subject\"" ∧
    (Publish ⟨[], Except.ok [], []⟩ (Except.ok ())).published = [] :=
  C4_missing_subject_400 _ _ rfl

/-- C5 (amended): when the stream or consumer lookup fails,
`getOrCreateStream` / `getOrCreateConsumer` fall back to exactly one
creation attempt instead of surfacing the lookup error; an error reaches
the caller exactly when that creation attempt also fails, and no internal
retry happens in any case; a successful lookup returns the existing handle
with no creation.  (The claim as stated — any lookup failure surfaces an
error to the caller, with no fallback action — fails when the fallback
creation succeeds; see the counterexample.) -/
theorem C5_amended_provisioning_fallback (lookup create : Except Unit Nat)
    (name : String) (clookup : Except Unit Nat)
    (ccreate : JetStreamConsumerConfig → Except Unit Nat) :
    (∀ s, lookup = Except.ok s →
      getOrCreateStream lookup create = ⟨Except.ok s, 0⟩) ∧
    (lookup = Except.error () →
      getOrCreateStream lookup create = ⟨create, 1⟩) ∧
    (∀ c, clookup = Except.ok c →
      getOrCreateConsumer name clookup ccreate = ⟨Except.ok c, none⟩) ∧
    (clookup = Except.error () → ∃ cfg,
      getOrCreateConsumer name clookup ccreate = ⟨ccreate cfg, some cfg⟩) := by
  refine ⟨fun s hs => ?_, fun he => ?_, fun c hc => ?_, fun he => ?_⟩
  · rw [hs]; rfl
  · rw [he]; rfl
  · rw [hc]; rfl
  · rw [he]; exact ⟨_, rfl⟩

theorem C5_witness :
    getOrCreateStream (Except.error ()) (Except.error ()) = ⟨Except.error (), 1⟩ :=
  (C5_amended_provisioning_fallback (Except.error ()) (Except.error ()) "c"
    (Except.error ()) (fun _ => Except.error ())).2.1 rfl

/-- C5 counterexample: a failing lookup whose fallback creation succeeds
surfaces no error — the call returns the created handle after one creation
call, refuting "any lookup error surfaces an error to the caller, without
any fallback action". -/
theorem C5_counterexample :
    (getOrCreateStream (Except.error ()) (Except.ok 7)).result = Except.ok 7 ∧
    (getOrCreateStream (Except.error ()) (Except.ok 7)).createCalls = 1 :=
  ⟨rfl, rfl⟩

/-- C6: whenever `getOrCreateConsumer` creates a durable consumer (the
lookup found none), the creation is configured with the requested durable
name, explicit acknowledgment mode, deliver-all policy and unlimited
redelivery (MaxDeliver = -1). -/
theorem C6_created_consumer_config (name : String) (lookup : Except Unit Nat)
    (create : JetStreamConsumerConfig → Except Unit Nat)
    (hl : lookup = Except.error ()) :
    ∃ cfg, (getOrCreateConsumer name lookup create).created = some cfg ∧
      cfg.durable = name ∧ cfg.ackPolicy = AckPolicy.ackExplicit ∧
      cfg.deliverPolicy = DeliverPolicy.deliverAll ∧ cfg.maxDeliver = -1 := by
  rw [hl]
  exact ⟨_, rfl, rfl, rfl, rfl, rfl⟩

theorem C6_witness :
    ∃ cfg, (getOrCreateConsumer "dur" (Except.error ())
        (fun _ => Except.ok 0)).created = some cfg ∧
      cfg.durable = "dur" ∧ cfg.ackPolicy = AckPolicy.ackExplicit ∧
      cfg.deliverPolicy = DeliverPolicy.deliverAll ∧ cfg.maxDeliver = -1 :=
  C6_created_consumer_config "dur" _ _ rfl

/-- C7: for every delivered message whose effective webhook URL parses,
`send` issues a POST whose body is the message payload, whose URL is the
webhook URL carrying exactly one subject query parameter equal to the
message's subject, with a Content-Type application/json header, an
Authorization Bearer header exactly when the effective key is non-empty,
and every message header appended (not replacing) onto the request's
headers.  (Message header keys are pairwise distinct, being a Go map.) -/
theorem C7_request_shape (w : WebhookConfig) (m : Message) (u : URLParts)
    (doRes : Except Unit HttpResponse)
    (hnd : List.Pairwise (fun a b => a.1 ≠ b.1) m.header) :
    ∃ req, (send w m (some u) doRes).request = some req ∧
      req.method = "POST" ∧
      req.body = m.data ∧
      (∃ segs, req.url = u.base ++ "?" ++ "&".intercalate segs ∧
        (segs.map splitParam).filter (fun p => p.1 = "subject")
          = [("subject", m.subject)]) ∧
      multiGetAll req.header "Content-Type"
        = "application/json" :: multiGetAll m.header "Content-Type" ∧
      (w.key ≠ "" → multiGetAll req.header "Authorization"
        = ("Bearer " ++ w.key) :: multiGetAll m.header "Authorization") ∧
      (w.key = "" → multiGetAll req.header "Authorization"
        = multiGetAll m.header "Authorization") ∧
      (∀ k, k ≠ "Content-Type" → k ≠ "Authorization" →
        multiGetAll req.header k = multiGetAll m.header k) := by
  refine ⟨buildRequest w m u, send_request w m u doRes, rfl, rfl,
    ⟨outgoingSegments u m.subject, rfl,
      subject_pairs _ _ (parseQuery_keys_eqFree u.querySegments)⟩, ?_, ?_, ?_, ?_⟩
  · show multiGetAll (addAll (requestBaseHeader w) m.header) "Content-Type" = _
    rw [multiGetAll_addAll m.header "Content-Type" (requestBaseHeader w) hnd,
      requestBaseHeader_CT w]
    rfl
  · intro hk
    show multiGetAll (addAll (requestBaseHeader w) m.header) "Authorization" = _
    rw [multiGetAll_addAll m.header "Authorization" (requestBaseHeader w) hnd,
      requestBaseHeader_Auth_pos w hk]
    rfl
  · intro hk
    show multiGetAll (addAll (requestBaseHeader w) m.header) "Authorization" = _
    rw [multiGetAll_addAll m.header "Authorization" (requestBaseHeader w) hnd,
      requestBaseHeader_Auth_neg w hk]
    rfl
  · intro k h1 h2
    show multiGetAll (addAll (requestBaseHeader w) m.header) k = _
    rw [multiGetAll_addAll m.header k (requestBaseHeader w) hnd,
      requestBaseHeader_other w k h1 h2]
    rfl

theorem C7_witness :
    ∃ req, (send ⟨"http://h/x", "k"⟩ ⟨"S", [80], [("Nats-Id", ["7"])]⟩
        (some ⟨"http://h/x", []⟩) (Except.ok ⟨200, Except.ok []⟩)).request = some req ∧
      req.method = "POST" ∧
      req.body = [80] ∧
      (∃ segs, req.url = "http://h/x" ++ "?" ++ "&".intercalate segs ∧
        (segs.map splitParam).filter (fun p => p.1 = "subject")
          = [("subject", "S")]) ∧
      multiGetAll req.header "Content-Type"
        = "application/json" :: multiGetAll [("Nats-Id", ["7"])] "Content-Type" ∧
      ((("k" : String) ≠ "") → multiGetAll req.header "Authorization"
        = ("Bearer " ++ "k") :: multiGetAll [("Nats-Id", ["7"])] "Authorization") ∧
      ((("k" : String) = "") → multiGetAll req.header "Authorization"
        = multiGetAll [("Nats-Id", ["7"])] "Authorization") ∧
      (∀ k, k ≠ "Content-Type" → k ≠ "Authorization" →
        multiGetAll req.header k = multiGetAll [("Nats-Id", ["7"])] k) :=
  C7_request_shape ⟨"http://h/x", "k"⟩ ⟨"S", [80], [("Nats-Id", ["7"])]⟩
    ⟨"http://h/x", []⟩ (Except.ok ⟨200, Except.ok []⟩) (by simp)

/-- C8: the `bearerAuth` gate: when a shared token is configured, a request
whose Authorization header is not exactly "Bearer " followed by the token
is rejected with status 401, a WWW-Authenticate Bearer-realm header and no
body (the protected handler is not invoked), while a matching header
passes; when no token is configured, every request passes unchanged. -/
theorem C8_bearer_gate (realm token authz : String) :
    (token = "" → bearerAuth realm token authz = GateOutcome.proceed) ∧
    (token ≠ "" → authz ≠ "Bearer " ++ token →
      bearerAuth realm token authz =
        GateOutcome.reject 401 ("Bearer realm=\"" ++ realm ++ "\"") []) ∧
    (token ≠ "" → authz = "Bearer " ++ token →
      bearerAuth realm token authz = GateOutcome.proceed) := by
  refine ⟨fun h => ?_, fun h1 h2 => ?_, fun h1 h2 => ?_⟩
  · simp [bearerAuth, h]
  · unfold bearerAuth
    rw [if_neg h1, if_pos h2]
  · unfold bearerAuth
    rw [if_neg h1, if_neg fun hh => hh h2]

theorem C8_witness :
    bearerAuth "example" "secret" "" =
      GateOutcome.reject 401 "Bearer realm=\"example\"" [] :=
  (C8_bearer_gate "example" "secret" "").2.1 (by decide) (by decide)

/-- C10: when the configured webhook URL already carries a subject query
parameter, `send` replaces it with the message's subject and re-encodes
the query string, so the outgoing URL carries exactly one subject value. -/
theorem C10_subject_replaced (w : WebhookConfig) (m : Message) (u : URLParts)
    (doRes : Except Unit HttpResponse)
    (_hhas : multiGetAll (parseQuerySegments u.querySegments) "subject" ≠ []) :
    ∃ req segs, (send w m (some u) doRes).request = some req ∧
      req.url = u.base ++ "?" ++ "&".intercalate segs ∧
      (segs.map splitParam).filter (fun p => p.1 = "subject")
        = [("subject", m.subject)] :=
  ⟨buildRequest w m u, outgoingSegments u m.subject, send_request w m u doRes, rfl,
   subject_pairs _ _ (parseQuery_keys_eqFree u.querySegments)⟩

theorem C10_witness :
    ∃ req segs, (send ⟨"http://h/x", ""⟩ ⟨"S", [], []⟩
        (some ⟨"http://h/x", ["subject=old", "a=1"]⟩) (Except.error ())).request
          = some req ∧
      req.url = "http://h/x" ++ "?" ++ "&".intercalate segs ∧
      (segs.map splitParam).filter (fun p => p.1 = "subject")
        = [("subject", "S")] :=
  C10_subject_replaced ⟨"http://h/x", ""⟩ ⟨"S", [], []⟩
    ⟨"http://h/x", ["subject=old", "a=1"]⟩ (Except.error ()) (by decide)

end Hats
